import Mathlib

/-
Verification of the Simond vault front-end against its design document.

Shallow embedding of the stateful logic of the repository:
  * src/components/custom_sidebar.py   (CustomSidebar selection model)
  * src/components/custom_title_bar.py (user-menu trigger button / popover)
  * src/components/user_settings_menu.py (popover focus-loss behaviour)
  * src/main.py                        (VaultWindow: root directory, drag-drop import)

Python dictionaries are modelled as association lists (first match wins, which
coincides with dict behaviour because all keys inserted are distinct), file
system state as an association list from paths to file contents, and the
environment-dependent failures of shutil.copy2 as an explicit oracle.
-/

set_option maxRecDepth 4000

namespace Simond

/-! ## Sidebar model (src/components/custom_sidebar.py)

`CustomSidebar` holds `self.items : dict[str, SidebarItem]` and
`self.current_item : Optional[str]`.  The only piece of each `SidebarItem`
relevant to the selection claims is its `_is_selected` flag, so an item map is
an association list from ids to that flag. -/

/-- State of `CustomSidebar`: `current_item` and, for each id in insertion
order, the `_is_selected` flag of the corresponding `SidebarItem`. -/
structure CustomSidebar where
  current_item : Option String
  items : List (String × Bool)
  deriving DecidableEq, Repr

/-- Membership test `item_id in self.items` on the Python dict. -/
def containsId : List (String × Bool) → String → Bool
  | [], _ => false
  | p :: t, id => p.1 == id || containsId t id

/-- `self.items[item_id]._is_selected` (False when the id is absent). -/
def lookupSelected : List (String × Bool) → String → Bool
  | [], _ => false
  | p :: t, id => if p.1 == id then p.2 else lookupSelected t id

/-- `self.items[item_id].set_selected(b)`: update the flag of the entry whose
key is `item_id` (the dict has at most one such entry). -/
def setSelectedFlag : List (String × Bool) → String → Bool → List (String × Bool)
  | [], _, _ => []
  | p :: t, id, b => (if p.1 == id then (p.1, b) else p) :: setSelectedFlag t id b

/-- Python truthiness of `self.current_item` (None and "" are falsy). -/
def optTruthy : Option String → Bool
  | none => false
  | some s => !(s == "")

/-- `CustomSidebar.set_current_item` (custom_sidebar.py lines 300-309):
first deselect the previous holder if `self.current_item` is truthy and a key
of the dict, then, if `item_id` is a key, select it and record it. -/
def set_current_item (sb : CustomSidebar) (item_id : String) : CustomSidebar :=
  let sb1 :=
    if optTruthy sb.current_item && containsId sb.items (sb.current_item.getD "") then
      { sb with items := setSelectedFlag sb.items (sb.current_item.getD "") false }
    else sb
  if containsId sb1.items item_id then
    { current_item := some item_id, items := setSelectedFlag sb1.items item_id true }
  else sb1

/-- `CustomSidebar.init_ui`: the five items are created unselected in insertion
order home, local, my_space, in_progress, settings, then
`set_current_item("home")` runs (custom_sidebar.py lines 292-293). -/
def initSidebar : CustomSidebar :=
  set_current_item
    { current_item := none
      items := [("home", false), ("local", false), ("my_space", false),
                ("in_progress", false), ("settings", false)] }
    "home"

/-- The ids present in the sidebar after construction. -/
def validIds : List String :=
  ["home", "local", "my_space", "in_progress", "settings"]

/-- Ids of the items whose `_is_selected` flag is set. -/
def selectedIds (items : List (String × Bool)) : List String :=
  (items.filter (fun p => p.2)).map (fun p => p.1)

/-- A sequence of `set_current_item` calls. -/
def runSelections (sb : CustomSidebar) (ids : List String) : CustomSidebar :=
  ids.foldl set_current_item sb

/-- The sidebar state in which exactly the item `c` is selected and recorded. -/
def mkState (c : String) : CustomSidebar :=
  { current_item := some c
    items := [("home", c == "home"), ("local", c == "local"),
              ("my_space", c == "my_space"), ("in_progress", c == "in_progress"),
              ("settings", c == "settings")] }

/-! ### Association-list lemmas for the sidebar -/

theorem containsId_setSelectedFlag (items : List (String × Bool)) (c x : String) (b : Bool) :
    containsId (setSelectedFlag items c b) x = containsId items x := by
  induction items with
  | nil => rfl
  | cons p t ih =>
    by_cases h : p.1 = c
    · simp [containsId, setSelectedFlag, h, ih]
    · simp [containsId, setSelectedFlag, h, ih]

theorem lookupSelected_setSelectedFlag_self (items : List (String × Bool)) (c : String)
    (b : Bool) (h : containsId items c = true) :
    lookupSelected (setSelectedFlag items c b) c = b := by
  induction items with
  | nil => simp [containsId] at h
  | cons p t ih =>
    by_cases hp : p.1 = c
    · simp [lookupSelected, setSelectedFlag, hp]
    · have h' : containsId t c = true := by
        simpa [containsId, hp] using h
      simpa [lookupSelected, setSelectedFlag, hp] using ih h'

theorem lookupSelected_setSelectedFlag_ne (items : List (String × Bool)) (c x : String)
    (b : Bool) (h : x ≠ c) :
    lookupSelected (setSelectedFlag items c b) x = lookupSelected items x := by
  induction items with
  | nil => rfl
  | cons p t ih =>
    by_cases hp : p.1 = c
    · have hpx : ¬ p.1 = x := by
        rw [hp]; exact fun hc => h hc.symm
      simpa [lookupSelected, setSelectedFlag, hp, hpx, Ne.symm h] using ih
    · by_cases hx : p.1 = x
      · simp [lookupSelected, setSelectedFlag, hp, hx, h]
      · simpa [lookupSelected, setSelectedFlag, hp, hx] using ih

theorem initSidebar_eq : initSidebar = mkState "home" := by decide

theorem containsId_mkState (c id : String) :
    containsId (mkState c).items id = true ↔ id ∈ validIds := by
  simp only [mkState, containsId, validIds, Bool.or_eq_true, beq_iff_eq,
    List.mem_cons, List.not_mem_nil, or_false]
  constructor
  · rintro (h | h | h | h | h | h) <;> simp_all
  · rintro (h | h | h | h | h) <;> simp_all

theorem set_current_item_mkState (c id : String) (hc : c ∈ validIds)
    (hid : id ∈ validIds) :
    set_current_item (mkState c) id = mkState id := by
  fin_cases hc <;> fin_cases hid <;> decide

theorem runSelections_mkState (ids : List String) (c : String) (hc : c ∈ validIds)
    (h : ∀ id ∈ ids, id ∈ validIds) :
    runSelections (mkState c) ids = mkState (ids.getLastD c) := by
  induction ids generalizing c with
  | nil => rfl
  | cons a t ih =>
    have ha : a ∈ validIds := h a (List.mem_cons_self a t)
    have ht : ∀ id ∈ t, id ∈ validIds := fun id hm => h id (List.mem_cons_of_mem a hm)
    calc runSelections (mkState c) (a :: t)
        = runSelections (set_current_item (mkState c) a) t := rfl
      _ = runSelections (mkState a) t := by rw [set_current_item_mkState c a hc ha]
      _ = mkState (t.getLastD a) := ih a ha ht
      _ = mkState ((a :: t).getLastD c) := by rw [List.getLastD_cons]

theorem selectedIds_mkState (c : String) (hc : c ∈ validIds) :
    selectedIds (mkState c).items = [c] := by
  fin_cases hc <;> decide

/-- Claim C1 counterexample: in the freshly constructed sidebar the item
`"home"` is selected and recorded, `"bogus"` is not a known id, yet
`set_current_item "bogus"` — far from being a no-op — deselects `"home"`
(while leaving the recorded current selection pointing at it). -/
theorem set_current_item_unknown_not_noop :
    containsId initSidebar.items "bogus" = false ∧
    initSidebar.current_item = some "home" ∧
    lookupSelected initSidebar.items "home" = true ∧
    (set_current_item initSidebar "bogus").current_item = some "home" ∧
    lookupSelected (set_current_item initSidebar "bogus").items "home" = false := by
  decide

/-- Claim C1 (amended): for every sidebar state with a truthy recorded current
selection that is a key of the item map, calling `set_current_item` with an id
not present in the item map leaves the recorded current selection unchanged and
leaves every other item's flag unchanged, but deselects the currently selected
item (its flag becomes false), so no item remains selected. -/
theorem set_current_item_unknown_id (sb : CustomSidebar) (id c : String)
    (hunknown : containsId sb.items id = false)
    (hcur : sb.current_item = some c) (hc : c ≠ "")
    (hcin : containsId sb.items c = true) :
    (set_current_item sb id).current_item = sb.current_item ∧
    lookupSelected (set_current_item sb id).items c = false ∧
    ∀ j, j ≠ c → lookupSelected (set_current_item sb id).items j =
      lookupSelected sb.items j := by
  have hc' : (c == "") = false := by simpa using hc
  have hstep : set_current_item sb id =
      { sb with items := setSelectedFlag sb.items c false } := by
    simp only [set_current_item, hcur, optTruthy, Option.getD_some, hc',
      Bool.not_false, Bool.true_and, hcin, if_true]
    rw [containsId_setSelectedFlag, hunknown]
    simp
  refine ⟨?_, ?_, ?_⟩
  · rw [hstep, hcur]
  · rw [hstep]
    exact lookupSelected_setSelectedFlag_self sb.items c false hcin
  · intro j hj
    rw [hstep]
    exact lookupSelected_setSelectedFlag_ne sb.items c j false hj

/-- Witness for the amended claim C1 at a concrete state: the freshly
constructed sidebar, unknown id `"nope"`. -/
theorem set_current_item_unknown_id_witness :
    containsId initSidebar.items "nope" = false ∧
    initSidebar.current_item = some "home" ∧
    (set_current_item initSidebar "nope").current_item = initSidebar.current_item ∧
    lookupSelected (set_current_item initSidebar "nope").items "home" = false :=
  ⟨by decide, by decide,
    (set_current_item_unknown_id initSidebar "nope" "home" (by decide) (by decide)
      (by decide) (by decide)).1,
    (set_current_item_unknown_id initSidebar "nope" "home" (by decide) (by decide)
      (by decide) (by decide)).2.1⟩

/-- Claim C6: for every sequence of `set_current_item` calls whose ids are all
valid items of the sidebar, after each call (equivalently, after running any
such sequence) exactly one navigation item has its selected flag set, and it is
the item named by the most recent call; immediately after construction the
selected item is `"home"`. -/
theorem sidebar_selection_invariant (ids : List String)
    (h : ∀ id ∈ ids, containsId initSidebar.items id = true) :
    initSidebar.current_item = some "home" ∧
    selectedIds initSidebar.items = ["home"] ∧
    selectedIds (runSelections initSidebar ids).items = [ids.getLastD "home"] ∧
    (runSelections initSidebar ids).current_item = some (ids.getLastD "home") := by
  have hv : ∀ id ∈ ids, id ∈ validIds := by
    intro id hm
    have := h id hm
    rw [initSidebar_eq] at this
    exact (containsId_mkState "home" id).mp this
  have hhome : ("home" : String) ∈ validIds := by decide
  have hrun : runSelections initSidebar ids = mkState (ids.getLastD "home") := by
    rw [initSidebar_eq]
    exact runSelections_mkState ids "home" hhome hv
  have hlast : ids.getLastD "home" ∈ validIds := by
    cases hlist : ids with
    | nil => simpa [hlist] using hhome
    | cons a t =>
      have : ids.getLastD "home" ∈ ids := by
        rw [hlist, List.getLastD_cons]
        exact List.getLastD_mem_cons t a
      exact hv _ (hlist ▸ this)
  refine ⟨by rw [initSidebar_eq]; rfl, by rw [initSidebar_eq]; decide, ?_, ?_⟩
  · rw [hrun]
    exact selectedIds_mkState _ hlast
  · rw [hrun]
    rfl

/-- Witness for claim C6 at a concrete call sequence `["local", "settings"]`. -/
theorem sidebar_selection_invariant_witness :
    (∀ id ∈ (["local", "settings"] : List String),
      containsId initSidebar.items id = true) ∧
    selectedIds (runSelections initSidebar ["local", "settings"]).items = ["settings"] ∧
    (runSelections initSidebar ["local", "settings"]).current_item = some "settings" :=
  ⟨by decide,
    (sidebar_selection_invariant ["local", "settings"] (by decide)).2.2.1,
    (sidebar_selection_invariant ["local", "settings"] (by decide)).2.2.2⟩

/-! ## User-menu popover model (src/components/custom_title_bar.py and
src/components/user_settings_menu.py)

The trigger `settings_btn` is a checkable QPushButton; clicking it flips its
checked state and fires `toggled`, which is connected to
`CustomTitleBar.toggle_user_menu`.  The popover itself is a `UserSettingsMenu`
whose `focusOutEvent` hides it; its menu items and logout button also call
`self.hide()` after emitting their signal.  The only state bits the claims
mention are the button's checked flag and the menu's visibility.

Note: `CustomTitleBar.hideEvent` (lines 396-400) tries to uncheck
`self.parent().settings_btn` when the *title bar itself* is hidden; the title
bar's parent is the `VaultWindow`, which has no `settings_btn` attribute, so
that handler never changes any state modelled here, and nothing unchecks the
button when the *menu* hides. -/

/-- Checked state of `settings_btn` and visibility of `user_menu`. -/
structure TitleBarState where
  checked : Bool
  menuVisible : Bool
  deriving DecidableEq, Repr

/-- After `CustomTitleBar.__init__`: the button is unchecked and
`self.user_menu.hide()` has run. -/
def initTitleBar : TitleBarState := { checked := false, menuVisible := false }

/-- `CustomTitleBar.show_user_menu`: `_menu_was_open_on_press` is never set
(the assignment is commented out), so `getattr(..., False)` is False and the
menu is shown (positioned and animated) whenever it is not already visible. -/
def show_user_menu (s : TitleBarState) : TitleBarState :=
  if s.menuVisible then s else { s with menuVisible := true }

/-- `CustomTitleBar.toggle_user_menu` (lines 390-394), the slot of the
button's `toggled(checked)` signal. -/
def toggle_user_menu (checked : Bool) (s : TitleBarState) : TitleBarState :=
  if checked then show_user_menu s else { s with menuVisible := false }

/-- A click on the checkable `settings_btn`: Qt flips the checked state and
emits `toggled` with the new value. -/
def triggerToggle (s : TitleBarState) : TitleBarState :=
  toggle_user_menu (!s.checked) { s with checked := !s.checked }

/-- `UserSettingsMenu.focusOutEvent` (lines 304-307): `self.hide()`.  Nothing
unchecks the trigger button. -/
def focusOut (s : TitleBarState) : TitleBarState :=
  { s with menuVisible := false }

/-- Activation of a menu item (or the logout button): the corresponding signal
is emitted, then `self.hide()`.  Nothing unchecks the trigger button. -/
def menuItemActivate (s : TitleBarState) : TitleBarState :=
  { s with menuVisible := false }

/-- The three interactions of claim C2. -/
inductive MenuEvent
  | trigger
  | focusLoss
  | itemActivate
  deriving DecidableEq, Repr

def menuStep : MenuEvent → TitleBarState → TitleBarState
  | .trigger, s => triggerToggle s
  | .focusLoss, s => focusOut s
  | .itemActivate, s => menuItemActivate s

/-- Run a sequence of interactions from a state. -/
def runMenu (s : TitleBarState) (es : List MenuEvent) : TitleBarState :=
  es.foldl (fun s e => menuStep e s) s

/-- Claim C2, evaluated at the failing interaction sequence: from the initial
Closed/unchecked state, a trigger toggle opens the popover; a focus loss closes
it but leaves the button checked; the next trigger toggle — from Closed — keeps
the popover Closed, contradicting the claimed Closed→Open transition.  (The
intended unchecking lives in `CustomTitleBar.hideEvent`, which fires for the
title bar, not the menu, and looks for `settings_btn` on the main window where
it does not exist.) -/
theorem popover_toggle_desync :
    (runMenu initTitleBar [.trigger]).menuVisible = true ∧
    (runMenu initTitleBar [.trigger, .focusLoss]).menuVisible = false ∧
    (runMenu initTitleBar [.trigger, .focusLoss]).checked = true ∧
    (runMenu initTitleBar [.trigger, .focusLoss, .trigger]).menuVisible = false := by
  decide

/-! ## Claim C8: trigger-toggle parity -/

/-- `n` consecutive clicks on the trigger button with no other interaction. -/
def iterateTrigger : Nat → TitleBarState → TitleBarState
  | 0, s => s
  | n + 1, s => iterateTrigger n (triggerToggle s)

theorem triggerToggle_synced (b : Bool) :
    triggerToggle { checked := b, menuVisible := b } =
      { checked := !b, menuVisible := !b } := by
  cases b <;> rfl

theorem iterateTrigger_synced (n : Nat) (b : Bool) :
    iterateTrigger n { checked := b, menuVisible := b } =
      { checked := xor b (decide (n % 2 = 1)),
        menuVisible := xor b (decide (n % 2 = 1)) } := by
  induction n generalizing b with
  | zero => simp [iterateTrigger]
  | succ n ih =>
    rw [iterateTrigger, triggerToggle_synced, ih]
    have hmod : decide ((n + 1) % 2 = 1) = !(decide (n % 2 = 1)) := by
      rcases Nat.even_or_odd n with he | ho
      · have h0 : n % 2 = 0 := Nat.even_iff.mp he
        have h1 : (n + 1) % 2 = 1 := by omega
        simp [h0, h1]
      · have h0 : n % 2 = 1 := Nat.odd_iff.mp ho
        have h1 : (n + 1) % 2 = 0 := by omega
        simp [h0, h1]
    rw [hmod]
    cases b <;> cases hdec : decide (n % 2 = 1) <;> simp

/-- Claim C8: starting from the Closed popover state with the trigger button
unchecked, toggling the trigger `n` times with no other interaction leaves the
popover Closed when `n` is even and Open when `n` is odd. -/
theorem popover_trigger_parity (n : Nat) :
    (iterateTrigger n initTitleBar).menuVisible = decide (n % 2 = 1) := by
  have := iterateTrigger_synced n false
  simp only [initTitleBar] at *
  rw [this]
  simp

/-! ## Drag-and-drop file import (src/main.py, `VaultWindow.dropEvent`)

The filesystem is modelled as an association list from absolute paths to file
contents (only regular files appear; `os.path.isfile` is membership).
Environment-dependent failures of `shutil.copy2` (permissions, disk full, ...)
are an oracle mapping a source path to the error message of the exception it
raises there, absent entries meaning the copy succeeds. -/

/-- Regular files and their contents; first match wins. -/
abbrev FileSys := List (String × String)

/-- Content of the regular file at `p`, if any (`os.path.isfile p` is
`(fsGet fs p).isSome`). -/
def fsGet : FileSys → String → Option String
  | [], _ => none
  | e :: t, p => if e.1 == p then some e.2 else fsGet t p

/-- Write `v` at path `p` (creating or silently overwriting). -/
def fsSet (fs : FileSys) (p v : String) : FileSys := (p, v) :: fs

/-- Characters of the current path component, scanning left to right and
restarting at each separator. -/
def basenameChars : List Char → List Char → List Char
  | [], cur => cur.reverse
  | c :: rest, cur =>
    if c = '/' then basenameChars rest [] else basenameChars rest (c :: cur)

/-- `os.path.basename`: the component after the last `/`. -/
def basename (p : String) : String := String.mk (basenameChars p.data [])

/-- `os.path.join` for the shapes that occur here (the second argument is a
basename, hence contains no separator). -/
def joinPath (a b : String) : String :=
  if a == "" then b
  else if a.data.getLast? = some '/' then a ++ b
  else a ++ "/" ++ b

/-- The error message `str(e)` of the exception `shutil.copy2` raises on this
source path, or `none` if the copy succeeds. -/
def copyFails : List (String × String) → String → Option String
  | [], _ => none
  | e :: t, p => if e.1 == p then some e.2 else copyFails t p

/-- The report shown by a single `QMessageBox` call at the end of
`VaultWindow.dropEvent`, carrying exactly the data interpolated into its
message string. -/
inductive Report
  /-- warning `"请先选择保险箱文件夹"` -/
  | noDirectory
  /-- information `"已成功复制 {copied} 个文件到保险箱"` -/
  | allCopied (copied : Nat)
  /-- warning `"成功复制 {copied} 个文件\n\n失败的文件：\n{failed_msg}"` -/
  | someFailed (copied : Nat) (failures : List (String × String))
  /-- critical `"所有文件复制失败：\n{failed_msg}"` -/
  | allFailed (failures : List (String × String))
  /-- warning `"没有有效的文件被拖入"` -/
  | noValidFiles
  deriving DecidableEq, Repr

/-- The number of copied files a report states. -/
def Report.copiedCount : Report → Nat
  | .noDirectory => 0
  | .allCopied c => c
  | .someFailed c _ => c
  | .allFailed _ => 0
  | .noValidFiles => 0

/-- The failures (filename, error cause) a report lists. -/
def Report.failureList : Report → List (String × String)
  | .someFailed _ f => f
  | .allFailed f => f
  | _ => []

/-- Result of a `dropEvent` call: the filesystem afterwards, the reports shown
(in order), and whether the event was accepted. -/
structure DropOutcome where
  fs : FileSys
  reports : List Report
  accepted : Bool
  deriving DecidableEq, Repr

/-- The `for url in urls` loop of `VaultWindow.dropEvent` (lines 247-268):
skip empty or non-file paths; otherwise copy to
`os.path.join(vault_dir, basename)` counting successes, and on an exception
record `(basename, str(e))` and continue with the remaining paths. -/
def processUrls (vd : String) (oracle : List (String × String)) :
    List String → FileSys → Nat → List (String × String) →
    FileSys × Nat × List (String × String)
  | [], fs, copied, failed => (fs, copied, failed)
  | url :: rest, fs, copied, failed =>
    if url == "" || !(fsGet fs url).isSome then
      processUrls vd oracle rest fs copied failed
    else
      match copyFails oracle url with
      | none =>
          processUrls vd oracle rest
            (fsSet fs (joinPath vd (basename url)) ((fsGet fs url).getD ""))
            (copied + 1) failed
      | some e =>
          processUrls vd oracle rest fs copied (failed ++ [(basename url, e)])

/-- `VaultWindow.dropEvent` (lines 224-304): ignore an empty payload; reject
with one warning when no vault directory is chosen; otherwise run the copy
loop and show exactly one summary message chosen from the loop's counters. -/
def dropEvent (vd : String) (oracle : List (String × String))
    (urls : List String) (fs : FileSys) : DropOutcome :=
  if urls.isEmpty then
    { fs := fs, reports := [], accepted := false }
  else if vd == "" then
    { fs := fs, reports := [Report.noDirectory], accepted := false }
  else
    let r := processUrls vd oracle urls fs 0 []
    { fs := r.1
      reports :=
        [if r.2.1 > 0 then
           if r.2.2.isEmpty then Report.allCopied r.2.1
           else Report.someFailed r.2.1 r.2.2
         else
           if r.2.2.isEmpty then Report.noValidFiles
           else Report.allFailed r.2.2]
      accepted := true }

/-- Claim C3: for every drop carrying a non-empty list of source paths, if the
vault root directory is unset the entire drop is rejected: the filesystem is
untouched, exactly one "no directory chosen" warning is shown, and the event
is not accepted. -/
theorem dropEvent_no_directory (oracle : List (String × String))
    (urls : List String) (fs : FileSys) (hurls : urls ≠ []) :
    dropEvent "" oracle urls fs =
      { fs := fs, reports := [Report.noDirectory], accepted := false } := by
  have h : urls.isEmpty = false := by
    cases urls with
    | nil => exact absurd rfl hurls
    | cons a t => rfl
  simp [dropEvent, h]

/-- Witness for claim C3 at a concrete drop. -/
theorem dropEvent_no_directory_witness :
    (["/tmp/a.txt"] : List String) ≠ [] ∧
    dropEvent "" [] ["/tmp/a.txt"] [("/tmp/a.txt", "A")] =
      { fs := [("/tmp/a.txt", "A")], reports := [Report.noDirectory],
        accepted := false } :=
  ⟨by decide, dropEvent_no_directory [] ["/tmp/a.txt"] [("/tmp/a.txt", "A")] (by decide)⟩

theorem processUrls_skip_all (vd : String) (oracle : List (String × String))
    (urls : List String) (fs : FileSys) (copied : Nat)
    (failed : List (String × String))
    (h : ∀ p ∈ urls, p = "" ∨ (fsGet fs p).isSome = false) :
    processUrls vd oracle urls fs copied failed = (fs, copied, failed) := by
  induction urls with
  | nil => rfl
  | cons a t ih =>
    have ha := h a (List.mem_cons_self a t)
    have hcond : (a == "" || !(fsGet fs a).isSome) = true := by
      rcases ha with ha | ha <;> simp [ha]
    rw [processUrls, if_pos hcond]
    exact ih (fun p hp => h p (List.mem_cons_of_mem a hp))

/-- Claim C7: for every non-empty drop, with a vault root directory chosen,
whose every path is empty or does not resolve to an existing regular file,
each path is skipped (counted neither as copied nor as failed), the filesystem
is unchanged, and the single summary report is the "no valid files" warning,
which states 0 copied and lists no failure. -/
theorem dropEvent_all_invalid (vd : String) (oracle : List (String × String))
    (urls : List String) (fs : FileSys) (hurls : urls ≠ []) (hvd : vd ≠ "")
    (h : ∀ p ∈ urls, p = "" ∨ (fsGet fs p).isSome = false) :
    dropEvent vd oracle urls fs =
      { fs := fs, reports := [Report.noValidFiles], accepted := true } ∧
    Report.noValidFiles.copiedCount = 0 ∧
    Report.noValidFiles.failureList = [] := by
  have hne : urls.isEmpty = false := by
    cases urls with
    | nil => exact absurd rfl hurls
    | cons a t => rfl
  have hvd' : (vd == "") = false := by simpa using hvd
  refine ⟨?_, rfl, rfl⟩
  simp only [dropEvent, hne, hvd', Bool.false_eq_true, if_false,
    processUrls_skip_all vd oracle urls fs 0 [] h]
  rfl

/-- Witness for claim C7: dropping a single missing path. -/
theorem dropEvent_all_invalid_witness :
    (["/tmp/missing.txt"] : List String) ≠ [] ∧ ("/vault" : String) ≠ "" ∧
    dropEvent "/vault" [] ["/tmp/missing.txt"] [] =
      { fs := [], reports := [Report.noValidFiles], accepted := true } :=
  ⟨by decide, by decide,
    (dropEvent_all_invalid "/vault" [] ["/tmp/missing.txt"] [] (by decide) (by decide)
      (by decide)).1⟩

/-! ### Lemmas about the copy loop -/

theorem fsGet_fsSet_self (fs : FileSys) (p v : String) :
    fsGet (fsSet fs p v) p = some v := by
  simp [fsGet, fsSet]

theorem fsGet_fsSet_ne (fs : FileSys) (p v q : String) (h : q ≠ p) :
    fsGet (fsSet fs p v) q = fsGet fs q := by
  simp [fsGet, fsSet, Ne.symm h]

/-- The loop processes every success without touching paths other than the
destinations: copy count, failure list, destination contents, and a frame
condition for all other paths. -/
theorem processUrls_all_ok (vd : String) (oracle : List (String × String))
    (urls : List String) (fs : FileSys) (copied : Nat)
    (failed : List (String × String))
    (hfile : ∀ p ∈ urls, p ≠ "" ∧ (fsGet fs p).isSome = true)
    (hok : ∀ p ∈ urls, copyFails oracle p = none)
    (hnodup : (urls.map (fun p => joinPath vd (basename p))).Nodup)
    (hsep : ∀ p ∈ urls, ∀ q ∈ urls, p ≠ joinPath vd (basename q)) :
    (processUrls vd oracle urls fs copied failed).2.1 = copied + urls.length ∧
    (processUrls vd oracle urls fs copied failed).2.2 = failed ∧
    (∀ p ∈ urls,
      fsGet (processUrls vd oracle urls fs copied failed).1
        (joinPath vd (basename p)) = fsGet fs p) ∧
    (∀ q, (∀ p ∈ urls, q ≠ joinPath vd (basename p)) →
      fsGet (processUrls vd oracle urls fs copied failed).1 q = fsGet fs q) := by
  induction urls generalizing fs copied failed with
  | nil =>
    exact ⟨by simp [processUrls], rfl, by simp, fun q _ => rfl⟩
  | cons a t ih =>
    obtain ⟨ha1, ha2⟩ := hfile a (List.mem_cons_self a t)
    obtain ⟨va, hva⟩ := Option.isSome_iff_exists.mp ha2
    have hcond : (a == "" || !(fsGet fs a).isSome) = false := by
      simp [ha1, ha2]
    have hstep : processUrls vd oracle (a :: t) fs copied failed =
        processUrls vd oracle t
          (fsSet fs (joinPath vd (basename a)) ((fsGet fs a).getD ""))
          (copied + 1) failed := by
      simp only [processUrls]
      rw [if_neg (by simp [ha1, hva]), hok a (List.mem_cons_self a t)]
    have hdiff : ∀ p ∈ t, p ≠ joinPath vd (basename a) :=
      fun p hp => hsep p (List.mem_cons_of_mem a hp) a (List.mem_cons_self a t)
    have hfile' : ∀ p ∈ t, p ≠ "" ∧
        (fsGet (fsSet fs (joinPath vd (basename a)) ((fsGet fs a).getD "")) p).isSome
          = true := by
      intro p hp
      obtain ⟨h1, h2⟩ := hfile p (List.mem_cons_of_mem a hp)
      exact ⟨h1, by rw [fsGet_fsSet_ne _ _ _ _ (hdiff p hp)]; exact h2⟩
    have hok' : ∀ p ∈ t, copyFails oracle p = none :=
      fun p hp => hok p (List.mem_cons_of_mem a hp)
    rw [List.map_cons, List.nodup_cons] at hnodup
    have hhead := hnodup.1
    have hnodup' := hnodup.2
    have hsep' : ∀ p ∈ t, ∀ q ∈ t, p ≠ joinPath vd (basename q) :=
      fun p hp q hq =>
        hsep p (List.mem_cons_of_mem a hp) q (List.mem_cons_of_mem a hq)
    obtain ⟨ihc, ihf, ihdest, ihframe⟩ :=
      ih (fsSet fs (joinPath vd (basename a)) ((fsGet fs a).getD ""))
        (copied + 1) failed hfile' hok' hnodup' hsep'
    rw [hstep]
    refine ⟨by rw [ihc]; simp only [List.length_cons]; omega, ihf, ?_, ?_⟩
    · intro p hp
      rcases List.mem_cons.mp hp with hpa | hpt
      · subst hpa
        have hq : ∀ p' ∈ t, joinPath vd (basename p) ≠ joinPath vd (basename p') := by
          intro p' hp' heq
          exact hhead (by rw [heq]; exact List.mem_map_of_mem _ hp')
        rw [ihframe _ hq, fsGet_fsSet_self, hva]
        simp
      · rw [ihdest p hpt, fsGet_fsSet_ne _ _ _ _ (hdiff p hpt)]
    · intro q hq
      have hq' : ∀ p ∈ t, q ≠ joinPath vd (basename p) :=
        fun p hp => hq p (List.mem_cons_of_mem a hp)
      rw [ihframe q hq', fsGet_fsSet_ne _ _ _ _ (hq a (List.mem_cons_self a t))]

/-- Claim C4 counterexample: two regular files that share the base filename
`f.txt` are dropped with vault root `/v` and no copy error.  The code reports
"2 copied, 0 failed", but the second copy silently overwrites the first, so
the destination of `/x/f.txt` ends with content `"B"` instead of its source
content `"A"` — not all N files are present with content equal to their
sources, contradicting the claim as stated. -/
theorem dropEvent_duplicate_basename :
    (dropEvent "/v" [] ["/x/f.txt", "/y/f.txt"]
        [("/x/f.txt", "A"), ("/y/f.txt", "B")]).reports = [Report.allCopied 2] ∧
    fsGet [("/x/f.txt", "A"), ("/y/f.txt", "B")] "/x/f.txt" = some "A" ∧
    joinPath "/v" (basename "/x/f.txt") = "/v/f.txt" ∧
    fsGet (dropEvent "/v" [] ["/x/f.txt", "/y/f.txt"]
        [("/x/f.txt", "A"), ("/y/f.txt", "B")]).fs "/v/f.txt" = some "B" ∧
    ("B" : String) ≠ "A" := by
  decide

/-- Claim C4 (amended): for every non-empty drop of paths that all resolve to
regular files, with a vault root directory chosen, provided the destination
paths `join(vault, basename)` are pairwise distinct and no source path
coincides with a destination path, and the copy primitive succeeds on each
source, every file is copied into the vault root under its base filename
(silently overwriting any pre-existing file of that name); afterwards each of
the N destination files has content equal to its source, and the single
report states N copied with no failures. -/
theorem dropEvent_all_valid (vd : String) (oracle : List (String × String))
    (urls : List String) (fs : FileSys)
    (hurls : urls ≠ []) (hvd : vd ≠ "")
    (hfile : ∀ p ∈ urls, p ≠ "" ∧ (fsGet fs p).isSome = true)
    (hok : ∀ p ∈ urls, copyFails oracle p = none)
    (hnodup : (urls.map (fun p => joinPath vd (basename p))).Nodup)
    (hsep : ∀ p ∈ urls, ∀ q ∈ urls, p ≠ joinPath vd (basename q)) :
    (dropEvent vd oracle urls fs).reports = [Report.allCopied urls.length] ∧
    (Report.allCopied urls.length).copiedCount = urls.length ∧
    (Report.allCopied urls.length).failureList = [] ∧
    (∀ p ∈ urls,
      fsGet (dropEvent vd oracle urls fs).fs (joinPath vd (basename p)) =
        fsGet fs p) ∧
    (dropEvent vd oracle urls fs).accepted = true := by
  have hne : urls.isEmpty = false := by
    cases urls with
    | nil => exact absurd rfl hurls
    | cons a t => rfl
  have hvd' : (vd == "") = false := by simpa using hvd
  obtain ⟨hc, hf, hdest, _⟩ :=
    processUrls_all_ok vd oracle urls fs 0 [] hfile hok hnodup hsep
  have hlen : 0 < urls.length := by
    cases urls with
    | nil => exact absurd rfl hurls
    | cons a t => simp
  refine ⟨?_, rfl, rfl, ?_, ?_⟩
  · simp only [dropEvent, hne, hvd', Bool.false_eq_true, if_false, hc, hf]
    simp [hlen]
  · intro p hp
    simpa only [dropEvent, hne, hvd', Bool.false_eq_true, if_false] using hdest p hp
  · simp [dropEvent, hne, hvd']

/-- Witness for the amended claim C4: two distinct files dropped into `/v`. -/
theorem dropEvent_all_valid_witness :
    (dropEvent "/v" [] ["/tmp/a.txt", "/tmp/b.txt"]
        [("/tmp/a.txt", "A"), ("/tmp/b.txt", "B")]).reports =
      [Report.allCopied 2] ∧
    fsGet (dropEvent "/v" [] ["/tmp/a.txt", "/tmp/b.txt"]
        [("/tmp/a.txt", "A"), ("/tmp/b.txt", "B")]).fs
      (joinPath "/v" (basename "/tmp/a.txt")) = some "A" :=
  ⟨(dropEvent_all_valid "/v" [] ["/tmp/a.txt", "/tmp/b.txt"]
        [("/tmp/a.txt", "A"), ("/tmp/b.txt", "B")] (by decide) (by decide)
        (by decide) (by decide) (by decide) (by decide)).1,
    by
      rw [(dropEvent_all_valid "/v" [] ["/tmp/a.txt", "/tmp/b.txt"]
          [("/tmp/a.txt", "A"), ("/tmp/b.txt", "B")] (by decide) (by decide)
          (by decide) (by decide) (by decide) (by decide)).2.2.2.1
          "/tmp/a.txt" (by decide)]
      decide⟩

/-! ### Step equations and monotonicity of the copy loop -/

theorem processUrls_cons_skip (vd : String) (oracle : List (String × String))
    (a : String) (rest : List String) (fs : FileSys) (copied : Nat)
    (failed : List (String × String))
    (h : (a == "" || !(fsGet fs a).isSome) = true) :
    processUrls vd oracle (a :: rest) fs copied failed =
      processUrls vd oracle rest fs copied failed := by
  simp only [processUrls]
  rw [if_pos h]

theorem processUrls_cons_ok (vd : String) (oracle : List (String × String))
    (a : String) (rest : List String) (fs : FileSys) (copied : Nat)
    (failed : List (String × String))
    (h : (a == "" || !(fsGet fs a).isSome) = false)
    (hco : copyFails oracle a = none) :
    processUrls vd oracle (a :: rest) fs copied failed =
      processUrls vd oracle rest
        (fsSet fs (joinPath vd (basename a)) ((fsGet fs a).getD ""))
        (copied + 1) failed := by
  simp only [processUrls]
  rw [if_neg (by rw [h]; simp), hco]

theorem processUrls_cons_fail (vd : String) (oracle : List (String × String))
    (a : String) (rest : List String) (fs : FileSys) (copied : Nat)
    (failed : List (String × String)) (e : String)
    (h : (a == "" || !(fsGet fs a).isSome) = false)
    (hco : copyFails oracle a = some e) :
    processUrls vd oracle (a :: rest) fs copied failed =
      processUrls vd oracle rest fs copied (failed ++ [(basename a, e)]) := by
  simp only [processUrls]
  rw [if_neg (by rw [h]; simp), hco]

/-- The loop over `l1 ++ l2` is the loop over `l1` continued over `l2`. -/
theorem processUrls_append (vd : String) (oracle : List (String × String))
    (l1 l2 : List String) (fs : FileSys) (copied : Nat)
    (failed : List (String × String)) :
    processUrls vd oracle (l1 ++ l2) fs copied failed =
      processUrls vd oracle l2 (processUrls vd oracle l1 fs copied failed).1
        (processUrls vd oracle l1 fs copied failed).2.1
        (processUrls vd oracle l1 fs copied failed).2.2 := by
  induction l1 generalizing fs copied failed with
  | nil => rfl
  | cons a t ih =>
    rw [List.cons_append]
    by_cases hcond : (a == "" || !(fsGet fs a).isSome) = true
    · rw [processUrls_cons_skip vd oracle a (t ++ l2) fs copied failed hcond,
        processUrls_cons_skip vd oracle a t fs copied failed hcond, ih]
    · rw [Bool.not_eq_true] at hcond
      cases hco : copyFails oracle a with
      | none =>
        rw [processUrls_cons_ok vd oracle a (t ++ l2) fs copied failed hcond hco,
          processUrls_cons_ok vd oracle a t fs copied failed hcond hco, ih]
      | some e =>
        rw [processUrls_cons_fail vd oracle a (t ++ l2) fs copied failed e hcond hco,
          processUrls_cons_fail vd oracle a t fs copied failed e hcond hco, ih]

/-- The loop only appends to the failure list it is given. -/
theorem processUrls_failed_grow (vd : String) (oracle : List (String × String))
    (urls : List String) (fs : FileSys) (copied : Nat)
    (failed : List (String × String)) :
    ∃ g, (processUrls vd oracle urls fs copied failed).2.2 = failed ++ g := by
  induction urls generalizing fs copied failed with
  | nil => exact ⟨[], by simp [processUrls]⟩
  | cons a t ih =>
    by_cases hcond : (a == "" || !(fsGet fs a).isSome) = true
    · rw [processUrls_cons_skip vd oracle a t fs copied failed hcond]
      exact ih fs copied failed
    · rw [Bool.not_eq_true] at hcond
      cases hco : copyFails oracle a with
      | none =>
        rw [processUrls_cons_ok vd oracle a t fs copied failed hcond hco]
        exact ih _ _ _
      | some e =>
        rw [processUrls_cons_fail vd oracle a t fs copied failed e hcond hco]
        obtain ⟨g, hg⟩ := ih fs copied (failed ++ [(basename a, e)])
        exact ⟨(basename a, e) :: g, by rw [hg, List.append_assoc]; rfl⟩

/-- The loop never removes a file: no rollback. -/
theorem processUrls_fs_mono (vd : String) (oracle : List (String × String))
    (urls : List String) (fs : FileSys) (copied : Nat)
    (failed : List (String × String)) (p : String)
    (h : (fsGet fs p).isSome = true) :
    (fsGet (processUrls vd oracle urls fs copied failed).1 p).isSome = true := by
  induction urls generalizing fs copied failed with
  | nil => simpa [processUrls] using h
  | cons a t ih =>
    by_cases hcond : (a == "" || !(fsGet fs a).isSome) = true
    · rw [processUrls_cons_skip vd oracle a t fs copied failed hcond]
      exact ih fs copied failed h
    · rw [Bool.not_eq_true] at hcond
      cases hco : copyFails oracle a with
      | none =>
        rw [processUrls_cons_ok vd oracle a t fs copied failed hcond hco]
        apply ih
        by_cases hpd : p = joinPath vd (basename a)
        · rw [hpd, fsGet_fsSet_self]
          rfl
        · rw [fsGet_fsSet_ne _ _ _ _ hpd]
          exact h
      | some e =>
        rw [processUrls_cons_fail vd oracle a t fs copied failed e hcond hco]
        exact ih fs copied (failed ++ [(basename a, e)]) h

/-- Claim C5: with a vault root directory chosen, a copy failure on one path
does not prevent the remaining paths from being attempted — processing
`l1 ++ [b] ++ l2`, where the copy of the regular file `b` raises `e`, records
`(basename b, e)` and continues over `l2` from the same filesystem, with no
rollback of files already present after the `l1` phase — and exactly one
summary report is shown, carrying the loop's copied count and the full list of
(filename, error cause) failures. -/
theorem dropEvent_failure_isolation (vd : String) (oracle : List (String × String))
    (l1 l2 : List String) (b : String) (fs : FileSys) (e : String)
    (hvd : vd ≠ "") (hb : b ≠ "") (hbfile : (fsGet fs b).isSome = true)
    (hbe : copyFails oracle b = some e) :
    (dropEvent vd oracle (l1 ++ b :: l2) fs).reports.length = 1 ∧
    processUrls vd oracle (l1 ++ b :: l2) fs 0 [] =
      processUrls vd oracle l2 (processUrls vd oracle l1 fs 0 []).1
        (processUrls vd oracle l1 fs 0 []).2.1
        ((processUrls vd oracle l1 fs 0 []).2.2 ++ [(basename b, e)]) ∧
    (basename b, e) ∈ (processUrls vd oracle (l1 ++ b :: l2) fs 0 []).2.2 ∧
    (∀ p, (fsGet (processUrls vd oracle l1 fs 0 []).1 p).isSome = true →
      (fsGet (dropEvent vd oracle (l1 ++ b :: l2) fs).fs p).isSome = true) ∧
    ∀ r ∈ (dropEvent vd oracle (l1 ++ b :: l2) fs).reports,
      r.copiedCount = (processUrls vd oracle (l1 ++ b :: l2) fs 0 []).2.1 ∧
      r.failureList = (processUrls vd oracle (l1 ++ b :: l2) fs 0 []).2.2 := by
  have hne : (l1 ++ b :: l2).isEmpty = false := by
    cases l1 <;> rfl
  have hvd' : (vd == "") = false := by simpa using hvd
  have hbfile1 : (fsGet (processUrls vd oracle l1 fs 0 []).1 b).isSome = true :=
    processUrls_fs_mono vd oracle l1 fs 0 [] b hbfile
  have hcondb : (b == "" || !(fsGet (processUrls vd oracle l1 fs 0 []).1 b).isSome)
      = false := by
    simp [hb, hbfile1]
  have hsplit : processUrls vd oracle (l1 ++ b :: l2) fs 0 [] =
      processUrls vd oracle l2 (processUrls vd oracle l1 fs 0 []).1
        (processUrls vd oracle l1 fs 0 []).2.1
        ((processUrls vd oracle l1 fs 0 []).2.2 ++ [(basename b, e)]) := by
    rw [processUrls_append vd oracle l1 (b :: l2) fs 0 [],
      processUrls_cons_fail vd oracle b l2 _ _ _ e hcondb hbe]
  have hmem : (basename b, e) ∈ (processUrls vd oracle (l1 ++ b :: l2) fs 0 []).2.2 := by
    rw [hsplit]
    obtain ⟨g, hg⟩ := processUrls_failed_grow vd oracle l2
      (processUrls vd oracle l1 fs 0 []).1 (processUrls vd oracle l1 fs 0 []).2.1
      ((processUrls vd oracle l1 fs 0 []).2.2 ++ [(basename b, e)])
    rw [hg]
    simp
  have hfne : (processUrls vd oracle (l1 ++ b :: l2) fs 0 []).2.2.isEmpty = false := by
    cases hq : (processUrls vd oracle (l1 ++ b :: l2) fs 0 []).2.2 with
    | nil => rw [hq] at hmem; exact absurd hmem (List.not_mem_nil _)
    | cons x xs => rfl
  have hdrop : dropEvent vd oracle (l1 ++ b :: l2) fs =
      { fs := (processUrls vd oracle (l1 ++ b :: l2) fs 0 []).1
        reports :=
          [if (processUrls vd oracle (l1 ++ b :: l2) fs 0 []).2.1 > 0 then
             if (processUrls vd oracle (l1 ++ b :: l2) fs 0 []).2.2.isEmpty then
               Report.allCopied (processUrls vd oracle (l1 ++ b :: l2) fs 0 []).2.1
             else Report.someFailed (processUrls vd oracle (l1 ++ b :: l2) fs 0 []).2.1
               (processUrls vd oracle (l1 ++ b :: l2) fs 0 []).2.2
           else
             if (processUrls vd oracle (l1 ++ b :: l2) fs 0 []).2.2.isEmpty then
               Report.noValidFiles
             else Report.allFailed (processUrls vd oracle (l1 ++ b :: l2) fs 0 []).2.2]
        accepted := true } := by
    simp only [dropEvent, hne, hvd', Bool.false_eq_true, if_false]
  refine ⟨by rw [hdrop]; rfl, hsplit, hmem, ?_, ?_⟩
  · intro p hp
    rw [hdrop]
    show (fsGet (processUrls vd oracle (l1 ++ b :: l2) fs 0 []).1 p).isSome = true
    rw [hsplit]
    exact processUrls_fs_mono vd oracle l2 _ _ _ p hp
  · intro r hr
    rw [hdrop] at hr
    rcases List.mem_singleton.mp hr with rfl
    rcases Nat.eq_zero_or_pos (processUrls vd oracle (l1 ++ b :: l2) fs 0 []).2.1 with
      hc0 | hcpos
    · simp [hc0, hfne, Report.copiedCount, Report.failureList]
    · have hcpos' : 0 < (processUrls vd oracle (l1 ++ b :: l2) fs 0 []).2.1 := hcpos
      simp [Nat.pos_iff_ne_zero.mp hcpos, hfne, Report.copiedCount, Report.failureList,
        hcpos']

/-- Witness for claim C5: dropping `/a`, `/b`, `/c` into `/v`, where copying
`/b` fails with "disk full". -/
theorem dropEvent_failure_isolation_witness :
    ("/v" : String) ≠ "" ∧
    copyFails [("/b", "disk full")] "/b" = some "disk full" ∧
    (dropEvent "/v" [("/b", "disk full")] (["/a"] ++ "/b" :: ["/c"])
        [("/a", "A"), ("/b", "B"), ("/c", "C")]).reports.length = 1 ∧
    (basename "/b", "disk full") ∈
      (processUrls "/v" [("/b", "disk full")] (["/a"] ++ "/b" :: ["/c"])
        [("/a", "A"), ("/b", "B"), ("/c", "C")] 0 []).2.2 :=
  ⟨by decide, by decide,
    (dropEvent_failure_isolation "/v" [("/b", "disk full")] ["/a"] ["/c"] "/b"
      [("/a", "A"), ("/b", "B"), ("/c", "C")] "disk full" (by decide) (by decide)
      (by decide) (by decide)).1,
    (dropEvent_failure_isolation "/v" [("/b", "disk full")] ["/a"] ["/c"] "/b"
      [("/a", "A"), ("/b", "B"), ("/c", "C")] "disk full" (by decide) (by decide)
      (by decide) (by decide)).2.2.1⟩

/-! ## Icon loading (custom_sidebar.py `load_svg_icon_with_color`,
custom_title_bar.py `load_svg_icon_with_system_color`,
custom_sidebar.py `SidebarItem.update_icon`)

Icon assets on disk are an association list from paths to SVG file contents
(`os.path.exists` is membership).  Recoloring the SVG text and rasterising it
through QSvgRenderer/QPainter are external toolkit effects; an icon value
records symbolically what was rendered.  All three operations are total: the
Python bodies contain no `raise` and reach no failing call once the existence
check has been passed (modulo filesystem races, outside this model). -/

/-- A `QIcon` value: `QIcon()` (blank) or an icon rendered from the given SVG
content recolored with the given color at the given size. -/
inductive Icon
  | empty
  | rendered (svg : String) (color : String) (size : Nat)
  deriving DecidableEq, Repr

/-- A `QPixmap` value: a transparent pixmap or a rendered, recolored SVG. -/
inductive Pixmap
  | transparent (size : Nat)
  | rendered (svg : String) (color : String) (size : Nat)
  deriving DecidableEq, Repr

/-- `os.path.exists` on the icon asset store. -/
def pathExists : List (String × String) → String → Bool
  | [], _ => false
  | e :: t, p => e.1 == p || pathExists t p

/-- Content of the asset file at `p` (only queried after an existence check). -/
def assetContent : List (String × String) → String → String
  | [], _ => ""
  | e :: t, p => if e.1 == p then e.2 else assetContent t p

/-- `load_svg_icon_with_color` (custom_sidebar.py lines 337-368): if the file
does not exist return the blank `QIcon()`; otherwise read it and render it
recolored. -/
def load_svg_icon_with_color (disk : List (String × String))
    (svg_path color : String) (size : Nat) : Icon :=
  if pathExists disk svg_path then
    Icon.rendered (assetContent disk svg_path) color size
  else Icon.empty

/-- The system palette: present (`QApplication.instance()` non-null) with its
color lookup, or absent. -/
inductive ColorRole
  | highlight
  | highlightedText
  | windowText
  deriving DecidableEq, Repr

/-- The fallback colors used when no application instance exists
(`SidebarItem._get_system_color`, custom_sidebar.py lines 85-99). -/
def defaultColor : ColorRole → String
  | .highlight => "#0078D4"
  | .highlightedText => "#FFFFFF"
  | .windowText => "#E0E0E0"

/-- `SidebarItem._get_system_color`: palette color when an application
instance exists, fallback otherwise. -/
def get_system_color (app : Option (ColorRole → String)) (role : ColorRole) :
    String :=
  match app with
  | some palette => palette role
  | none => defaultColor role

/-- `load_svg_icon_with_system_color` (custom_title_bar.py lines 20-72): if
the file does not exist return a transparent pixmap placeholder; otherwise
render the file recolored with the window-text color (`"#212121"` when no
application instance exists). -/
def load_svg_icon_with_system_color (app : Option (ColorRole → String))
    (disk : List (String × String)) (svg_path : String) (size : Nat) : Pixmap :=
  if pathExists disk svg_path then
    Pixmap.rendered (assetContent disk svg_path)
      (match app with
       | some palette => palette ColorRole.windowText
       | none => "#212121")
      size
  else Pixmap.transparent size

/-- What `SidebarItem.update_icon` leaves in `icon_label`: cleared, or the
pixmap of an icon. -/
inductive LabelContent
  | cleared
  | pixmap (icon : Icon)
  deriving DecidableEq, Repr

/-- Python truthiness of an optional path argument. -/
def pathTruthy : Option String → Bool
  | none => false
  | some s => !(s == "")

/-- `SidebarItem.update_icon` (custom_sidebar.py lines 101-128): pick the
icon from the {selected, hovered} state and the two optional icon paths,
falling through to `icon_label.clear()` when no branch produces an icon. -/
def update_icon (app : Option (ColorRole → String))
    (disk : List (String × String)) (selected hovered : Bool)
    (icon_regular_path icon_filled_path : Option String) : LabelContent :=
  let icon : Option Icon :=
    if selected && pathTruthy icon_filled_path then
      if pathExists disk (icon_filled_path.getD "") then
        some (load_svg_icon_with_color disk (icon_filled_path.getD "")
          (get_system_color app .highlight) 28)
      else none
    else if hovered && !selected && pathTruthy icon_regular_path then
      if pathExists disk (icon_regular_path.getD "") then
        some (load_svg_icon_with_color disk (icon_regular_path.getD "")
          (get_system_color app .highlightedText) 28)
      else none
    else if pathTruthy icon_regular_path then
      if pathExists disk (icon_regular_path.getD "") then
        some (load_svg_icon_with_color disk (icon_regular_path.getD "")
          (get_system_color app .windowText) 28)
      else none
    else none
  match icon with
  | some i => LabelContent.pixmap i
  | none => LabelContent.cleared

/-- Claim C9: whenever the named SVG asset file is absent on disk, the
icon-loading operations degrade to a blank/transparent result — `QIcon()`
from `load_svg_icon_with_color`, a transparent pixmap from
`load_svg_icon_with_system_color`, and a cleared icon label from
`SidebarItem.update_icon` — and, being total functions, raise no error. -/
theorem missing_asset_blank_icon (disk : List (String × String))
    (p color reg fil : String) (size : Nat) (app : Option (ColorRole → String))
    (selected hovered : Bool)
    (hp : pathExists disk p = false)
    (hreg : pathExists disk reg = false)
    (hfil : pathExists disk fil = false) :
    load_svg_icon_with_color disk p color size = Icon.empty ∧
    load_svg_icon_with_system_color app disk p size = Pixmap.transparent size ∧
    update_icon app disk selected hovered (some reg) (some fil) =
      LabelContent.cleared := by
  refine ⟨?_, ?_, ?_⟩
  · simp [load_svg_icon_with_color, hp]
  · simp [load_svg_icon_with_system_color, hp]
  · simp only [update_icon, Option.getD_some, hreg, hfil, Bool.false_eq_true,
      if_false]
    cases selected <;> cases hovered <;> simp [pathTruthy]

/-- Witness for claim C9: empty asset store, every path absent. -/
theorem missing_asset_blank_icon_witness :
    pathExists [] "home.svg" = false ∧
    load_svg_icon_with_color [] "home.svg" "#0078D4" 28 = Icon.empty ∧
    load_svg_icon_with_system_color none [] "home.svg" 14 =
      Pixmap.transparent 14 ∧
    update_icon none [] true false (some "reg.svg") (some "fil.svg") =
      LabelContent.cleared :=
  ⟨rfl,
    (missing_asset_blank_icon [] "home.svg" "#0078D4" "reg.svg" "fil.svg" 28 none
      true false rfl rfl rfl).1,
    (missing_asset_blank_icon [] "home.svg" "#0078D4" "reg.svg" "fil.svg" 14 none
      true false rfl rfl rfl).2.1,
    (missing_asset_blank_icon [] "home.svg" "#0078D4" "reg.svg" "fil.svg" 28 none
      true false rfl rfl rfl).2.2⟩

/-! ## Vault window root-directory state (src/main.py) -/

/-- The `VaultWindow` state the root-directory claims mention: `vault_dir`,
the filesystem model's root path, the list view's root index (both unset
until `setRootPath` runs), and the status-bar message. -/
structure VaultWindowState where
  vault_dir : String
  fileModelRootPath : Option String
  listViewRootIndex : Option String
  statusMessage : String
  deriving DecidableEq, Repr

/-- `VaultWindow.__init__` and `init_ui` (main.py lines 25-125): `vault_dir`
starts as `""`, no root path is set on the model or the view, and the status
bar shows the "no vault folder chosen yet" message. -/
def initVaultWindow : VaultWindowState :=
  { vault_dir := ""
    fileModelRootPath := none
    listViewRootIndex := none
    statusMessage := "尚未选择保险箱文件夹" }

/-- `VaultWindow.choose_vault_dir` (main.py lines 185-206): the dialog result
(`""` when the user cancels) mutates the state only when truthy. -/
def choose_vault_dir (s : VaultWindowState) (dialogResult : String) :
    VaultWindowState :=
  if dialogResult == "" then s
  else
    { vault_dir := dialogResult
      fileModelRootPath := some dialogResult
      listViewRootIndex := some dialogResult
      statusMessage := "当前保险箱：" ++ dialogResult }

/-- Claim C10: the vault root directory is the empty string at window
construction, and `choose_vault_dir` mutates the state only when the dialog
returns a non-empty directory: on cancel (empty result) the vault directory,
the file model's root path, the view's root index and the status-bar message
are all left unchanged, and on a non-empty result the directory is recorded
everywhere. -/
theorem choose_vault_dir_spec (s : VaultWindowState) (d : String) :
    initVaultWindow.vault_dir = "" ∧
    choose_vault_dir s "" = s ∧
    (d ≠ "" → (choose_vault_dir s d).vault_dir = d ∧
      (choose_vault_dir s d).fileModelRootPath = some d ∧
      (choose_vault_dir s d).statusMessage = "当前保险箱：" ++ d) := by
  refine ⟨rfl, by simp [choose_vault_dir], ?_⟩
  intro hd
  have hd' : (d == "") = false := by simpa using hd
  simp [choose_vault_dir, hd']

/-- Witness for claim C10 at a concrete state and dialog result. -/
theorem choose_vault_dir_spec_witness :
    choose_vault_dir initVaultWindow "" = initVaultWindow ∧
    ("/vault" : String) ≠ "" ∧
    (choose_vault_dir initVaultWindow "/vault").vault_dir = "/vault" :=
  ⟨(choose_vault_dir_spec initVaultWindow "/vault").2.1, by decide,
    ((choose_vault_dir_spec initVaultWindow "/vault").2.2 (by decide)).1⟩

end Simond
